import Mathlib

/-!
Verification of the sliding-window ranking core of TradingVolumeMonitor
(`src/rank_maintainer.py`), shallowly embedded in Lean 4.

Conventions of the embedding:
* Python floats are modelled as `Rat`; Python ints as `Int`.
* Exceptions are modelled by `Except PyError`; an `assert` that fails is
  `PyError.assertionError` (the spec's `RangeError`), `dict` lookup of a
  missing key is `PyError.keyError`, and a failed numeric coercion in
  `KLine.__init__` is `PyError.malformedBar` (the spec's `MalformedBarError`).
* The two network collaborators (`client.klines` for one latest bar and for a
  full backfill) are passed in as oracle functions returning `Except`.
* Python list indexing `l[i]` with possibly negative `i` is `pyGet`; under the
  bounds asserts of `calculate_average_data_by_given_window` every access is
  in range, so the default element of `List.getD` is never reached.
-/

deriving instance DecidableEq for Except

/-- Raw scalar value as delivered in one position of a 12-field kline tuple
from the exchange feed. `vNumStr` is a string holding a numeric literal
(the common case: prices and volumes arrive as decimal strings), `vStr` is
text that does not parse as a number, `vInt` a JSON integer (the epoch-ms
times), `vNum` a JSON float. -/
inductive RawVal where
  | vStr : String → RawVal
  | vNumStr : Rat → RawVal
  | vInt : Int → RawVal
  | vNum : Rat → RawVal
deriving DecidableEq, Repr

/-- Python `float(x)`: succeeds on numbers and numeric strings. -/
def pyFloat : RawVal → Option Rat
  | .vStr _ => none
  | .vNumStr q => some q
  | .vInt n => some n
  | .vNum q => some q

/-- Python `int(x)`: succeeds on ints, on floats (truncating toward zero) and
on integer-literal strings; fails on other text. -/
def pyInt : RawVal → Option Int
  | .vStr _ => none
  | .vNumStr q => if q.den = 1 then some q.num else none
  | .vInt n => some n
  | .vNum q => some (if 0 ≤ q then q.floor else q.ceil)

/-- Python `str(x)`: total. -/
def pyStr : RawVal → String
  | .vStr s => s
  | .vNumStr q => toString q
  | .vInt n => toString n
  | .vNum q => toString q

/-- The exceptions the embedded code can raise. `assertionError` models a
failing `assert` (the spec's `RangeError`); `malformedBar` models the
`TypeError`/`ValueError` of a failed coercion in `KLine.__init__` (the
spec's `MalformedBarError`); `dataSourceError` models a network failure
raised inside a fetch oracle. -/
inductive PyError where
  | assertionError : String → PyError
  | zeroDivisionError : PyError
  | indexError : PyError
  | keyError : String → PyError
  | malformedBar : String → PyError
  | dataSourceError : String → PyError
deriving DecidableEq, Repr

/-- One bar, as left by `KLine.__init__` (src/rank_maintainer.py:33-59).
Every field is coerced to its semantic type by the constructor EXCEPT
`min_price`: the source coerces `start_time, open_price, max_price,
close_price, turn_over, end_time, volume, transaction_num,
buying_turn_over, buying_volume, ignore_param` (lines 49-59) but has no
`self.min_price = float(self.min_price)` line, so `min_price` keeps
whatever raw value was passed in; the field type here records that. -/
structure KLine where
  start_time : Int
  open_price : Rat
  max_price : Rat
  min_price : RawVal
  close_price : Rat
  turn_over : Rat
  end_time : Int
  volume : Rat
  transaction_num : Int
  buying_turn_over : Rat
  buying_volume : Rat
  ignore_param : String
deriving DecidableEq, Repr

/-- Coerce one field with Python `float`, raising on failure. -/
def coerceFloat (fieldName : String) (v : RawVal) : Except PyError Rat :=
  match pyFloat v with
  | some q => .ok q
  | none => .error (.malformedBar fieldName)

/-- Coerce one field with Python `int`, raising on failure. -/
def coerceInt (fieldName : String) (v : RawVal) : Except PyError Int :=
  match pyInt v with
  | some n => .ok n
  | none => .error (.malformedBar fieldName)

/-- `KLine.__init__` (src/rank_maintainer.py:34-59): takes the 12 raw tuple
fields in order, stores them, then coerces them one by one in source order.
`min_price` is stored but never coerced (the source skips it), and
`ignore_param` goes through `str()` which never fails. -/
def KLine.construct (start_time open_price max_price min_price close_price
    turn_over end_time volume transaction_num buying_turn_over buying_volume
    ignore_param : RawVal) : Except PyError KLine := do
  let st ← coerceInt "start_time" start_time
  let op ← coerceFloat "open_price" open_price
  let mx ← coerceFloat "max_price" max_price
  let cl ← coerceFloat "close_price" close_price
  let tu ← coerceFloat "turn_over" turn_over
  let et ← coerceInt "end_time" end_time
  let vo ← coerceFloat "volume" volume
  let tn ← coerceInt "transaction_num" transaction_num
  let bt ← coerceFloat "buying_turn_over" buying_turn_over
  let bv ← coerceFloat "buying_volume" buying_volume
  .ok { start_time := st, open_price := op, max_price := mx,
        min_price := min_price, close_price := cl, turn_over := tu,
        end_time := et, volume := vo, transaction_num := tn,
        buying_turn_over := bt, buying_volume := bv,
        ignore_param := pyStr ignore_param }

/-- The 12-field raw kline tuple, with positions named as at the construction
sites (src/rank_maintainer.py:208-219 and 224-235). -/
structure RawBar where
  start_time : RawVal
  open_price : RawVal
  max_price : RawVal
  min_price : RawVal
  close_price : RawVal
  turn_over : RawVal
  end_time : RawVal
  volume : RawVal
  transaction_num : RawVal
  buying_turn_over : RawVal
  buying_volume : RawVal
  ignore_param : RawVal
deriving DecidableEq, Repr

/-- Build a `KLine` from a raw 12-field tuple, exactly as both call sites of
`KLine(...)` in the source do. -/
def constructBar (rb : RawBar) : Except PyError KLine :=
  KLine.construct rb.start_time rb.open_price rb.max_price rb.min_price
    rb.close_price rb.turn_over rb.end_time rb.volume rb.transaction_num
    rb.buying_turn_over rb.buying_volume rb.ignore_param

/-- The `KLinesAverageData` namedtuple (src/rank_maintainer.py:15-22).
`transaction_num` is a `Rat` because the source divides the integer sum with
true division `/`. -/
structure KLinesAverageData where
  turn_over : Rat
  volume : Rat
  transaction_num : Rat
  buying_turn_over : Rat
  buying_volume : Rat
  start_index : Int
  end_index : Int
deriving DecidableEq, Repr

/-- Default element for `List.getD`; under the bounds asserts of the
averaging routine it is provably never reached. -/
def dfltKLine : KLine :=
  { start_time := 0, open_price := 0, max_price := 0, min_price := .vInt 0,
    close_price := 0, turn_over := 0, end_time := 0, volume := 0,
    transaction_num := 0, buying_turn_over := 0, buying_volume := 0,
    ignore_param := "" }

/-- Python list index resolution: a negative index addresses `length + i`. -/
def pyIdx (n : Nat) (i : Int) : Int :=
  if i < 0 then (n : Int) + i else i

/-- Python `l[i]` for a list of bars (total via a default never reached under
the callers' bounds asserts). -/
def pyGet (l : List KLine) (i : Int) : KLine :=
  l.getD (pyIdx l.length i).toNat dfltKLine

/-- The bars visited by `for i in range(start_index, start_index +
window_size)` (src/rank_maintainer.py:146), in visiting order. -/
def barsInRange (l : List KLine) (s w : Int) : List KLine :=
  (List.range w.toNat).map (fun (j : Nat) => pyGet l (s + (j : Int)))

/-- Accumulated sum of one field over the loop of
`calculate_average_data_by_given_window` (src/rank_maintainer.py:146-151). -/
def windowSum (f : KLine → Rat) (l : List KLine) (s w : Int) : Rat :=
  ((barsInRange l s w).map f).sum

/-- `KLines.calculate_average_data_by_given_window`
(src/rank_maintainer.py:137-159): three bounds asserts, then a summing loop
and division of each sum by `window_size`. A `window_size` of `0` passes all
three asserts (`abs(0) <= len` holds) and then raises `ZeroDivisionError` at
the first division; the loop itself is empty in that case. -/
def calculate_average_data_by_given_window (l : List KLine)
    (start_index window_size : Int) : Except PyError KLinesAverageData :=
  if start_index.natAbs < l.length then
    if window_size.natAbs ≤ l.length then
      if (start_index + window_size).natAbs ≤ l.length then
        if window_size = 0 then .error .zeroDivisionError
        else
          .ok { turn_over :=
                  windowSum (fun k => k.turn_over) l start_index window_size
                    / (window_size : Rat),
                volume :=
                  windowSum (fun k => k.volume) l start_index window_size
                    / (window_size : Rat),
                transaction_num :=
                  windowSum (fun k => (k.transaction_num : Rat)) l start_index
                    window_size / (window_size : Rat),
                buying_turn_over :=
                  windowSum (fun k => k.buying_turn_over) l start_index
                    window_size / (window_size : Rat),
                buying_volume :=
                  windowSum (fun k => k.buying_volume) l start_index
                    window_size / (window_size : Rat),
                start_index := start_index,
                end_index := start_index + window_size - 1 }
      else .error (.assertionError "start_index + window_size out of range")
    else .error (.assertionError "window_size out of range")
  else .error (.assertionError "start_index out of range")

/-- `KLines.update_latest_klines` (src/rank_maintainer.py:122-135).
The source reads `self.klines_list[-1]` unconditionally, which raises
`IndexError` on an empty window; on a non-empty window it checks the
Revision condition first (`last.end <= new.end and last.start == new.start`:
replace the last element), then the Advance condition (`last.end <= new.end
and last.start < new.start`: `pop(0)` then `append`), and otherwise logs and
returns `False`, leaving the list untouched. -/
def update_latest_klines (l : List KLine) (k : KLine) :
    Except PyError (Bool × List KLine) :=
  match l.getLast? with
  | none => .error .indexError
  | some lastBar =>
    if lastBar.end_time ≤ k.end_time ∧ lastBar.start_time = k.start_time then
      .ok (true, l.dropLast ++ [k])
    else if lastBar.end_time ≤ k.end_time ∧ lastBar.start_time < k.start_time then
      .ok (true, l.tail ++ [k])
    else
      .ok (false, l)

/-- The state of `RankMaintainer` that the ranking operations touch
(src/rank_maintainer.py:162-187): the fixed window capacity
`max_klines_num`, the persisted tracked-symbol list
`cache_content["trading_pair_names"]`, and the per-symbol window map
`pair_name_to_klines_dict` — built as `defaultdict()` with NO default
factory (line 186), so indexing a missing symbol raises `KeyError`.
The map is modelled as an insertion-ordered association list, matching
Python dict semantics. -/
structure RankMaintainer where
  max_klines_num : Int
  trading_pair_names : List String
  pair_name_to_klines_dict : List (String × List KLine)
deriving DecidableEq, Repr

/-- Python dict assignment `d[k] = v`: replace in place if the key exists,
else append at the end (insertion order preserved). -/
def dictSet (d : List (String × List KLine)) (k : String) (v : List KLine) :
    List (String × List KLine) :=
  match d with
  | [] => [(k, v)]
  | (k', v') :: rest =>
    if k' = k then (k, v) :: rest else (k', v') :: dictSet rest k v

/-- `RankMaintainer.get_latest_kline` (src/rank_maintainer.py:222-236):
fetch the single most recent raw bar for a symbol from the exchange (the
oracle `fetch`; a network failure is its `.error`) and construct a `KLine`
from its 12 fields. The `interval` and `timeZone` arguments select which
series the oracle serves and are fixed inside it. -/
def get_latest_kline (fetch : String → Except PyError RawBar)
    (symbol : String) : Except PyError KLine :=
  match fetch symbol with
  | .error e => .error e
  | .ok raw => constructBar raw

/-- `RankMaintainer.update_klines` (src/rank_maintainer.py:246-249): fetch
the latest bar, then index `pair_name_to_klines_dict[symbol]` — `KeyError`
if no window is cached — and apply `update_latest_klines`, returning its
`bool` outcome. The mutation of the cached window is modelled by returning
the new state. -/
def update_klines (fetch : String → Except PyError RawBar)
    (st : RankMaintainer) (symbol : String) :
    Except PyError (Bool × RankMaintainer) :=
  match get_latest_kline fetch symbol with
  | .error e => .error e
  | .ok latest =>
    match List.lookup symbol st.pair_name_to_klines_dict with
    | none => .error (.keyError symbol)
    | some cached =>
      match update_latest_klines cached latest with
      | .error e => .error e
      | .ok (flag, cached') =>
        .ok (flag, { st with pair_name_to_klines_dict :=
                       dictSet st.pair_name_to_klines_dict symbol cached' })

/-- `RankMaintainer.convert_klines_list_to_klines`
(src/rank_maintainer.py:205-220): construct a `KLine` from each raw
12-field tuple in order; the first coercion failure aborts the whole
conversion. -/
def convert_klines_list_to_klines (raws : List RawBar) :
    Except PyError (List KLine) :=
  raws.mapM constructBar

/-- `RankMaintainer.get_current_trading_klines`
(src/rank_maintainer.py:238-244): return the cached window if the symbol is
present (a `KLines` object is always truthy), else backfill-fetch up to
`max_klines_num` raw bars (the oracle `fetchAll`), convert them and cache
the result. -/
def get_current_trading_klines (fetchAll : String → Except PyError (List RawBar))
    (st : RankMaintainer) (symbol : String) :
    Except PyError (List KLine × RankMaintainer) :=
  match List.lookup symbol st.pair_name_to_klines_dict with
  | some cached => .ok (cached, st)
  | none =>
    match fetchAll symbol with
    | .error e => .error e
    | .ok raws =>
      match convert_klines_list_to_klines raws with
      | .error e => .error e
      | .ok kl =>
        .ok (kl, { st with pair_name_to_klines_dict :=
                     dictSet st.pair_name_to_klines_dict symbol kl })

/-- The per-symbol ratio block shared verbatim by both ranking passes
(src/rank_maintainer.py:260-268 and 281-289): the two windowed averages at
`(max_klines_num - size, size)`, then
`(recent.buying_volume - past.buying_volume) / past.buying_volume`,
with the quotient defined as `0` when the past average is `0`. -/
def buying_volume_diff_ratio (l : List KLine) (max_klines_num p r : Int) :
    Except PyError Rat :=
  match calculate_average_data_by_given_window l (max_klines_num - p) p with
  | .error e => .error e
  | .ok past =>
    match calculate_average_data_by_given_window l (max_klines_num - r) r with
    | .error e => .error e
    | .ok recent =>
      if past.buying_volume = 0 then .ok 0
      else .ok ((recent.buying_volume - past.buying_volume) / past.buying_volume)

/-- Python `sorted(volume_diff_ratio_list, key=lambda x: x[1], reverse=True)`
(src/rank_maintainer.py:270 and 291): a STABLE sort, descending on the
ratio. A stable sort for a fixed total preorder has a unique output, so it
is embedded with the structurally recursive `List.insertionSort` on the
relation "my ratio is at least yours". -/
def rankSort (l : List (String × Rat)) : List (String × Rat) :=
  List.insertionSort (fun a b => b.2 ≤ a.2) l

/-- The body of the `for pair_name in rank_pair_names` loop of
`update_buying_volume_diff_ratio_rank` (src/rank_maintainer.py:278-290),
as a recursion over the remaining symbols. Note the source IGNORES the
boolean returned by `update_klines` and computes the symbol's ratio from
whatever window is cached afterwards; any exception (fetch failure, missing
window, range violation) propagates and aborts the whole loop. -/
def updateRankLoop (fetch : String → Except PyError RawBar) (p r : Int) :
    List String → RankMaintainer → List (String × Rat) →
    Except PyError (RankMaintainer × List (String × Rat))
  | [], st, acc => .ok (st, acc)
  | name :: rest, st, acc =>
    match update_klines fetch st name with
    | .error e => .error e
    | .ok (_updated, st1) =>
      match List.lookup name st1.pair_name_to_klines_dict with
      | none => .error (.keyError name)
      | some current =>
        match buying_volume_diff_ratio current st1.max_klines_num p r with
        | .error e => .error e
        | .ok q => updateRankLoop fetch p r rest st1 (acc ++ [(name, q)])

/-- `RankMaintainer.update_buying_volume_diff_ratio_rank`
(src/rank_maintainer.py:273-292): two size asserts, the per-symbol loop over
the tracked list, then the stable descending sort of the collected
`(symbol, ratio)` pairs. -/
def update_buying_volume_diff_ratio_rank (fetch : String → Except PyError RawBar)
    (st : RankMaintainer) (p r : Int) :
    Except PyError (RankMaintainer × List (String × Rat)) :=
  if p ≤ st.max_klines_num then
    if r ≤ st.max_klines_num then
      match updateRankLoop fetch p r st.trading_pair_names st [] with
      | .error e => .error e
      | .ok (st', lst) => .ok (st', rankSort lst)
    else .error (.assertionError
      "recent_klines_window_size must be less than max_klines_num")
  else .error (.assertionError
    "past_klines_window_size must be less than max_klines_num")

/-- The body of the `for pair_name in rank_pair_names` loop of
`get_init_buying_volume_diff_ratio_rank` (src/rank_maintainer.py:258-269). -/
def initRankLoop (fetchAll : String → Except PyError (List RawBar)) (p r : Int) :
    List String → RankMaintainer → List (String × Rat) →
    Except PyError (RankMaintainer × List (String × Rat))
  | [], st, acc => .ok (st, acc)
  | name :: rest, st, acc =>
    match get_current_trading_klines fetchAll st name with
    | .error e => .error e
    | .ok (current, st1) =>
      match buying_volume_diff_ratio current st1.max_klines_num p r with
      | .error e => .error e
      | .ok q => initRankLoop fetchAll p r rest st1 (acc ++ [(name, q)])

/-- `RankMaintainer.get_init_buying_volume_diff_ratio_rank`
(src/rank_maintainer.py:251-271). -/
def get_init_buying_volume_diff_ratio_rank
    (fetchAll : String → Except PyError (List RawBar))
    (st : RankMaintainer) (p r : Int) :
    Except PyError (RankMaintainer × List (String × Rat)) :=
  if p ≤ st.max_klines_num then
    if r ≤ st.max_klines_num then
      match initRankLoop fetchAll p r st.trading_pair_names st [] with
      | .error e => .error e
      | .ok (st', lst) => .ok (st', rankSort lst)
    else .error (.assertionError
      "recent_klines_window_size must be less than max_klines_num")
  else .error (.assertionError
    "past_klines_window_size must be less than max_klines_num")

/-- One entry of the spot exchange listing, with the two fields the resolver
reads (src/rank_maintainer.py:194-197). -/
structure SpotSymbolInfo where
  symbol : String
  status : String
deriving DecidableEq, Repr

/-- The spot-listing filter of `get_need_trading_pair_set`
(src/rank_maintainer.py:194-197): truthy symbol, quoted in USDT
(`symbol[-4:] == 'USDT'`), in active trading, and not already tracked. -/
def spotSymbolQualifies (cache : List String) (p : SpotSymbolInfo) : Bool :=
  p.symbol != "" && p.symbol.takeRight 4 == "USDT" && p.status == "TRADING"
    && !(cache.contains p.symbol)

/-- The derivatives-listing filter of `get_need_trading_pair_set`
(src/rank_maintainer.py:198-200): truthy pair name, quoted in USDT, and not
already tracked (no status check on this listing). -/
def umPairQualifies (cache : List String) (pair : String) : Bool :=
  pair != "" && pair.takeRight 4 == "USDT" && !(cache.contains pair)

/-- The list the resolver appends: `list(um_pair_names & pair_names)`
(src/rank_maintainer.py:201). Python materializes both filtered listings as
sets and appends their intersection in an unspecified enumeration order;
the embedding fixes one order (deduplicated derivatives order), which is
immaterial to the SET of appended symbols. -/
def symbolsToAppend (cache : List String) (spot : List SpotSymbolInfo)
    (um : List String) : List String :=
  ((um.filter (umPairQualifies cache)).dedup).filter
    (fun s => ((spot.filter (spotSymbolQualifies cache)).map
      (fun p => p.symbol)).contains s)

/-- `RankMaintainer.get_need_trading_pair_set`
(src/rank_maintainer.py:189-203), the spec's
`SymbolUniverseResolver.resolve()`: append the qualifying intersection of
the two external listings to the persisted tracked list and persist it.
The two listings are passed as data; persistence is the returned list. -/
def get_need_trading_pair_set (cache : List String)
    (spot : List SpotSymbolInfo) (um : List String) : List String :=
  cache ++ symbolsToAppend cache spot um

/-- Arithmetic mean of one field over a list of bars, dividing by the window
size exactly as the source's final division does. -/
def listAvg (f : KLine → Rat) (bars : List KLine) (w : Int) : Rat :=
  ((bars.map f).sum) / (w : Rat)

/-- Spec-side description for claim C9: the wrapped-around set of bars that a
negative `start_index` with `start_index + window_size > 0` addresses — the
last `|start_index|` bars of the window followed by its first
`start_index + window_size` bars. -/
def wrappedWindow (l : List KLine) (s w : Int) : List KLine :=
  l.drop (l.length - s.natAbs) ++ l.take (s + w).toNat

/-- Spec-side description for claim C2: the arithmetic mean of
`buying_volume` over the last `w` bars of the window. -/
def lastWindowAvgBuyingVolume (l : List KLine) (w : Int) : Rat :=
  (((l.drop (l.length - w.toNat)).map (fun k => k.buying_volume)).sum) / (w : Rat)

lemma pyGet_nonneg (l : List KLine) (i : Int) (h : 0 ≤ i) :
    pyGet l i = l.getD i.toNat dfltKLine := by
  unfold pyGet pyIdx
  rw [if_neg (by omega)]

lemma pyGet_neg (l : List KLine) (i : Int) (h : i < 0) :
    pyGet l i = l.getD ((l.length : Int) + i).toNat dfltKLine := by
  unfold pyGet pyIdx
  rw [if_pos h]

lemma range_map_getD :
    ∀ (a : Nat) (m : Nat) (l : List KLine), m + a ≤ l.length →
      (List.range a).map (fun j => l.getD (m + j) dfltKLine) = (l.drop m).take a := by
  intro a
  induction a with
  | zero => intro m l _; simp
  | succ n ih =>
    intro m l h
    have hm : m < l.length := by omega
    rw [List.range_succ_eq_map, List.map_cons, List.map_map,
        List.drop_eq_getElem_cons hm, List.take_succ_cons]
    congr 1
    · simpa using List.getD_eq_getElem l dfltKLine hm
    · rw [← ih (m + 1) l (by omega)]
      apply List.map_congr_left
      intro j _
      simp only [Function.comp_apply]
      congr 1
      omega

lemma barsInRange_nonneg (l : List KLine) (s w : Int) (hs : 0 ≤ s)
    (hw : 0 ≤ w) (h : (s + w).toNat ≤ l.length) :
    barsInRange l s w = (l.drop s.toNat).take w.toNat := by
  unfold barsInRange
  have h1 : ∀ j ∈ List.range w.toNat,
      pyGet l (s + (j : Int)) = l.getD (s.toNat + j) dfltKLine := by
    intro j hj
    simp only [List.mem_range] at hj
    rw [pyGet_nonneg l _ (by omega)]
    congr 1
    omega
  rw [List.map_congr_left h1, range_map_getD w.toNat s.toNat l (by omega)]

lemma barsInRange_wrap (l : List KLine) (s w : Int) (hs : s < 0)
    (hpos : 0 < s + w) (h1 : s.natAbs < l.length)
    (h3 : (s + w).natAbs ≤ l.length) :
    barsInRange l s w = wrappedWindow l s w := by
  have hsplit : w.toNat = (-s).toNat + (s + w).toNat := by omega
  unfold barsInRange wrappedWindow
  rw [hsplit, List.range_add, List.map_append, List.map_map]
  congr 1
  · have hpt : ∀ j ∈ List.range (-s).toNat,
        pyGet l (s + (j : Int)) = l.getD ((l.length - s.natAbs) + j) dfltKLine := by
      intro j hj
      simp only [List.mem_range] at hj
      rw [pyGet_neg l _ (by omega)]
      congr 1
      omega
    rw [List.map_congr_left hpt, range_map_getD _ _ l (by omega),
        List.take_of_length_le (by rw [List.length_drop]; omega)]
  · have hpt : ∀ j ∈ List.range (s + w).toNat,
        pyGet l (s + (((-s).toNat + j : Nat) : Int)) = l.getD (0 + j) dfltKLine := by
      intro j hj
      simp only [List.mem_range] at hj
      rw [pyGet_nonneg l _ (by omega)]
      congr 1
      omega
    simp only [Function.comp_def]
    rw [List.map_congr_left hpt, range_map_getD _ _ l (by omega)]
    simp

/-- Shared unfolding of the averaging routine on inputs that pass all three
asserts with a nonzero window size. -/
lemma calc_avg_ok (l : List KLine) (s w : Int) (h1 : s.natAbs < l.length)
    (h2 : w.natAbs ≤ l.length) (h3 : (s + w).natAbs ≤ l.length) (hw : w ≠ 0) :
    calculate_average_data_by_given_window l s w =
      .ok { turn_over := windowSum (fun k => k.turn_over) l s w / (w : Rat),
            volume := windowSum (fun k => k.volume) l s w / (w : Rat),
            transaction_num :=
              windowSum (fun k => (k.transaction_num : Rat)) l s w / (w : Rat),
            buying_turn_over :=
              windowSum (fun k => k.buying_turn_over) l s w / (w : Rat),
            buying_volume :=
              windowSum (fun k => k.buying_volume) l s w / (w : Rat),
            start_index := s, end_index := s + w - 1 } := by
  unfold calculate_average_data_by_given_window
  rw [if_pos h1, if_pos h2, if_pos h3, if_neg hw]


/-- Shared unfolding of the averaging routine on inputs that pass all three
asserts with window size zero: the empty loop is followed by a division by
zero. -/
lemma calc_avg_zero (l : List KLine) (s w : Int) (h1 : s.natAbs < l.length)
    (h2 : w.natAbs ≤ l.length) (h3 : (s + w).natAbs ≤ l.length) (hw : w = 0) :
    calculate_average_data_by_given_window l s w = .error .zeroDivisionError := by
  unfold calculate_average_data_by_given_window
  rw [if_pos h1, if_pos h2, if_pos h3, if_pos hw]

/-- Concrete bars used by witnesses and counterexamples. -/
def oneBar : KLine :=
  { dfltKLine with start_time := 0, end_time := 1, buying_volume := 2 }

def twoBar : KLine :=
  { dfltKLine with start_time := 1, end_time := 2, buying_volume := 6 }

def revBar : KLine :=
  { dfltKLine with start_time := 0, end_time := 2, buying_volume := 9 }

def staleBar : KLine :=
  { dfltKLine with start_time := -5, end_time := 1 }

def mkBar (i : Nat) : KLine :=
  { dfltKLine with
    start_time := (i : Int),
    end_time := (i : Int) + 1,
    volume := (i : Rat),
    buying_volume := (i : Rat) }

def bars10 : List KLine := (List.range 10).map mkBar

/-- C3: on a non-empty window, `update_latest_klines` takes the Revision
branch (the last element is replaced by the new bar, success returned)
exactly when `new.end_time >= last.end_time` and
`new.start_time == last.start_time`, and the Advance branch (index 0
evicted, new bar appended, length unchanged, new bar last) exactly when
`new.end_time >= last.end_time` and `new.start_time > last.start_time`;
Revision is checked before Advance (the two conditions are mutually
exclusive), and success occurs in no other case. -/
theorem c3_update_branch_conditions (l : List KLine) (k lastBar : KLine)
    (h : l.getLast? = some lastBar) :
    (lastBar.end_time ≤ k.end_time ∧ lastBar.start_time = k.start_time →
      update_latest_klines l k = .ok (true, l.dropLast ++ [k]))
    ∧ (lastBar.end_time ≤ k.end_time ∧ lastBar.start_time < k.start_time →
        update_latest_klines l k = .ok (true, l.tail ++ [k])
          ∧ (l.tail ++ [k]).length = l.length
          ∧ (l.tail ++ [k]).getLast? = some k)
    ∧ (∀ l' : List KLine, update_latest_klines l k = .ok (true, l') →
        (lastBar.end_time ≤ k.end_time ∧ lastBar.start_time = k.start_time) ∨
        (lastBar.end_time ≤ k.end_time ∧ lastBar.start_time < k.start_time)) := by
  have hne : l ≠ [] := by
    intro he
    rw [he] at h
    simp at h
  have hlen : 0 < l.length := List.length_pos.mpr hne
  refine ⟨?_, ?_, ?_⟩
  · intro hc
    simp only [update_latest_klines, h]
    rw [if_pos hc]
  · intro hc
    have hnc1 : ¬(lastBar.end_time ≤ k.end_time ∧
        lastBar.start_time = k.start_time) := by omega
    simp only [update_latest_klines, h]
    rw [if_neg hnc1, if_pos hc]
    refine ⟨rfl, ?_, ?_⟩
    · simp [List.length_tail]
      omega
    · simp
  · intro l' hl'
    simp only [update_latest_klines, h] at hl'
    by_cases hc1 : lastBar.end_time ≤ k.end_time ∧
        lastBar.start_time = k.start_time
    · exact Or.inl hc1
    · rw [if_neg hc1] at hl'
      by_cases hc2 : lastBar.end_time ≤ k.end_time ∧
          lastBar.start_time < k.start_time
      · exact Or.inr hc2
      · rw [if_neg hc2] at hl'
        simp at hl'

theorem c3_witness :
    update_latest_klines [oneBar] revBar =
      .ok (true, [oneBar].dropLast ++ [revBar]) :=
  (c3_update_branch_conditions [oneBar] revBar oneBar (by decide)).1 (by decide)

/-- C4: on a non-empty window, a new bar matching neither the Revision nor
the Advance condition — in particular any bar with an earlier end time than
the last bar's, or with a start time strictly less than the last bar's —
makes `update_latest_klines` return the rejection outcome `False`
(reported, not raised) with the window structurally unchanged. -/
theorem c4_update_rejection (l : List KLine) (k lastBar : KLine)
    (h : l.getLast? = some lastBar) :
    (¬(lastBar.end_time ≤ k.end_time ∧ lastBar.start_time = k.start_time) →
     ¬(lastBar.end_time ≤ k.end_time ∧ lastBar.start_time < k.start_time) →
      update_latest_klines l k = .ok (false, l))
    ∧ (k.end_time < lastBar.end_time →
        update_latest_klines l k = .ok (false, l))
    ∧ (k.start_time < lastBar.start_time →
        update_latest_klines l k = .ok (false, l)) := by
  refine ⟨?_, ?_, ?_⟩
  · intro h1 h2
    simp only [update_latest_klines, h]
    rw [if_neg h1, if_neg h2]
  · intro hend
    simp only [update_latest_klines, h]
    rw [if_neg (by omega : ¬(lastBar.end_time ≤ k.end_time ∧
          lastBar.start_time = k.start_time)),
        if_neg (by omega : ¬(lastBar.end_time ≤ k.end_time ∧
          lastBar.start_time < k.start_time))]
  · intro hstart
    simp only [update_latest_klines, h]
    rw [if_neg (by omega : ¬(lastBar.end_time ≤ k.end_time ∧
          lastBar.start_time = k.start_time)),
        if_neg (by omega : ¬(lastBar.end_time ≤ k.end_time ∧
          lastBar.start_time < k.start_time))]

theorem c4_witness :
    update_latest_klines [oneBar] staleBar = .ok (false, [oneBar]) :=
  (c4_update_rejection [oneBar] staleBar oneBar (by decide)).2.2 (by decide)

/-- C5 counterexample: with a one-bar window and
`(start_index, window_size) = (0, 0)` all three stated preconditions hold
(`abs(0) < 1`, `abs(0) <= 1`, `abs(0+0) <= 1`), yet the call does not
return any mean: it raises `ZeroDivisionError` (not the spec's
`RangeError`) at the first division. The claim's "for every pair
satisfying all three preconditions it returns the arithmetic mean" is
therefore false as stated. -/
theorem c5_counterexample :
    ((0 : Int).natAbs < [oneBar].length ∧ (0 : Int).natAbs ≤ [oneBar].length
      ∧ ((0 : Int) + 0).natAbs ≤ [oneBar].length)
    ∧ calculate_average_data_by_given_window [oneBar] 0 0 =
        .error .zeroDivisionError :=
  ⟨by decide, by decide⟩

/-- C5 (amended): `calculate_average_data_by_given_window` fails with
`RangeError` iff one of `|start_index| < length`, `|window_size| <= length`,
`|start_index + window_size| <= length` is violated; when all three hold
and additionally `window_size >= 1`, it returns the arithmetic mean of each
of the five aggregated fields over exactly the bars at indices
`start_index .. start_index + window_size - 1` (negative indices addressing
`length + index`), with `end_index - start_index + 1 = window_size`; when
all three hold but `window_size = 0` it instead fails with
`ZeroDivisionError` and produces no mean. -/
theorem c5_average_window_contract (l : List KLine) (s w : Int) :
    ((∃ m, calculate_average_data_by_given_window l s w =
        .error (.assertionError m)) ↔
      ¬(s.natAbs < l.length ∧ w.natAbs ≤ l.length ∧
        (s + w).natAbs ≤ l.length))
    ∧ (s.natAbs < l.length → w.natAbs ≤ l.length →
        (s + w).natAbs ≤ l.length → 1 ≤ w →
        calculate_average_data_by_given_window l s w =
          .ok { turn_over := listAvg (fun k => k.turn_over) (barsInRange l s w) w,
                volume := listAvg (fun k => k.volume) (barsInRange l s w) w,
                transaction_num :=
                  listAvg (fun k => (k.transaction_num : Rat)) (barsInRange l s w) w,
                buying_turn_over :=
                  listAvg (fun k => k.buying_turn_over) (barsInRange l s w) w,
                buying_volume :=
                  listAvg (fun k => k.buying_volume) (barsInRange l s w) w,
                start_index := s, end_index := s + w - 1 }
          ∧ (s + w - 1) - s + 1 = w)
    ∧ (s.natAbs < l.length → w.natAbs ≤ l.length →
        (s + w).natAbs ≤ l.length → w = 0 →
        calculate_average_data_by_given_window l s w =
          .error .zeroDivisionError) := by
  refine ⟨⟨?_, ?_⟩, ?_, ?_⟩
  · rintro ⟨m, hm⟩ ⟨h1, h2, h3⟩
    by_cases hw : w = 0
    · rw [calc_avg_zero l s w h1 h2 h3 hw] at hm
      simp at hm
    · rw [calc_avg_ok l s w h1 h2 h3 hw] at hm
      simp at hm
  · intro hviol
    unfold calculate_average_data_by_given_window
    by_cases h1 : s.natAbs < l.length
    · by_cases h2 : w.natAbs ≤ l.length
      · by_cases h3 : (s + w).natAbs ≤ l.length
        · exact absurd ⟨h1, h2, h3⟩ hviol
        · exact ⟨_, by rw [if_pos h1, if_pos h2, if_neg h3]⟩
      · exact ⟨_, by rw [if_pos h1, if_neg h2]⟩
    · exact ⟨_, by rw [if_neg h1]⟩
  · intro h1 h2 h3 hw
    refine ⟨?_, by omega⟩
    rw [calc_avg_ok l s w h1 h2 h3 (by omega)]
    rfl
  · intro h1 h2 h3 hw
    exact calc_avg_zero l s w h1 h2 h3 hw

theorem c5_witness :
    calculate_average_data_by_given_window [oneBar, twoBar] 0 2 =
      .ok { turn_over := listAvg (fun k => k.turn_over) (barsInRange [oneBar, twoBar] 0 2) 2,
            volume := listAvg (fun k => k.volume) (barsInRange [oneBar, twoBar] 0 2) 2,
            transaction_num :=
              listAvg (fun k => (k.transaction_num : Rat)) (barsInRange [oneBar, twoBar] 0 2) 2,
            buying_turn_over :=
              listAvg (fun k => k.buying_turn_over) (barsInRange [oneBar, twoBar] 0 2) 2,
            buying_volume :=
              listAvg (fun k => k.buying_volume) (barsInRange [oneBar, twoBar] 0 2) 2,
            start_index := 0, end_index := 0 + 2 - 1 }
      ∧ ((0 : Int) + 2 - 1) - 0 + 1 = 2 :=
  (c5_average_window_contract [oneBar, twoBar] 0 2).2.1 (by decide) (by decide)
    (by decide) (by decide)

/-- C9: with a negative `start_index` and `start_index + window_size > 0`
(permitted by the three preconditions, e.g. length 10, start -3, size 5),
the averaging routine averages a non-contiguous wrapped-around set of bars:
the last `|start_index|` bars of the window followed by its first
`start_index + window_size` bars. -/
theorem c9_wraparound_average (l : List KLine) (s w : Int) (hs : s < 0)
    (hpos : 0 < s + w) (h1 : s.natAbs < l.length) (h2 : w.natAbs ≤ l.length)
    (h3 : (s + w).natAbs ≤ l.length) :
    calculate_average_data_by_given_window l s w =
      .ok { turn_over := listAvg (fun k => k.turn_over) (wrappedWindow l s w) w,
            volume := listAvg (fun k => k.volume) (wrappedWindow l s w) w,
            transaction_num :=
              listAvg (fun k => (k.transaction_num : Rat)) (wrappedWindow l s w) w,
            buying_turn_over :=
              listAvg (fun k => k.buying_turn_over) (wrappedWindow l s w) w,
            buying_volume :=
              listAvg (fun k => k.buying_volume) (wrappedWindow l s w) w,
            start_index := s, end_index := s + w - 1 } := by
  have hbars : barsInRange l s w = wrappedWindow l s w :=
    barsInRange_wrap l s w hs hpos h1 h3
  rw [calc_avg_ok l s w h1 h2 h3 (by omega)]
  unfold windowSum listAvg
  rw [hbars]

theorem c9_witness :
    calculate_average_data_by_given_window bars10 (-3) 5 =
      .ok { turn_over := listAvg (fun k => k.turn_over) (wrappedWindow bars10 (-3) 5) 5,
            volume := listAvg (fun k => k.volume) (wrappedWindow bars10 (-3) 5) 5,
            transaction_num :=
              listAvg (fun k => (k.transaction_num : Rat)) (wrappedWindow bars10 (-3) 5) 5,
            buying_turn_over :=
              listAvg (fun k => k.buying_turn_over) (wrappedWindow bars10 (-3) 5) 5,
            buying_volume :=
              listAvg (fun k => k.buying_volume) (wrappedWindow bars10 (-3) 5) 5,
            start_index := -3, end_index := -3 + 5 - 1 }
    ∧ wrappedWindow bars10 (-3) 5 = [mkBar 7, mkBar 8, mkBar 9, mkBar 0, mkBar 1] :=
  ⟨c9_wraparound_average bars10 (-3) 5 (by decide) (by decide) (by decide)
      (by decide) (by decide),
   by decide⟩

/-- C2 counterexample: with a full window of length 1 (= `max_klines_num`)
and `p = r = 1 = max_klines_num`, the ranking pass computes its ratio fine
(the source evaluates `average_over(max_klines_num - p, p) =
average_over(0, 1)`), but the claim's defining expression
`average_over(-p, p) = average_over(-1, 1)` violates the
`|start_index| < length` precondition and fails with `RangeError`, so the
claimed equality with a formula built from `average_over(-p, p)` fails at
`p = max_klines_num`. -/
theorem c2_counterexample :
    buying_volume_diff_ratio [oneBar] 1 1 1 = .ok 0
    ∧ calculate_average_data_by_given_window [oneBar] (-1) 1 =
        .error (.assertionError "start_index out of range") := by
  refine ⟨?_, by decide⟩
  norm_num [buying_volume_diff_ratio, calculate_average_data_by_given_window,
    windowSum, barsInRange, pyGet, pyIdx, oneBar, dfltKLine, List.range_succ]

/-- C2 (amended): for a window holding exactly `max_klines_num` bars and
window sizes `1 <= p, r <= max_klines_num`, the per-symbol ratio computed
during ranking equals
`(recent_avg - past_avg) / past_avg` where `past_avg` (resp. `recent_avg`)
is the arithmetic mean of `buying_volume` over the last `p` (resp. `r`)
bars of the window, and it is exactly `0` whenever `past_avg = 0`;
moreover for `p < max_klines_num` the past average the ranking uses agrees
with the claim's `average_over(-p, p)` (at `p = max_klines_num` the
negative-index call instead violates the `|start_index| < length`
precondition, see the counterexample). -/
theorem c2_ratio_from_last_windows (l : List KLine) (p r : Int)
    (hp1 : 1 ≤ p) (hp2 : p ≤ (l.length : Int))
    (hr1 : 1 ≤ r) (hr2 : r ≤ (l.length : Int)) :
    buying_volume_diff_ratio l (l.length : Int) p r =
      .ok (if lastWindowAvgBuyingVolume l p = 0 then 0
           else (lastWindowAvgBuyingVolume l r - lastWindowAvgBuyingVolume l p) /
                lastWindowAvgBuyingVolume l p)
    ∧ (p < (l.length : Int) →
        (calculate_average_data_by_given_window l (-p) p).map
            (fun a => a.buying_volume) =
        (calculate_average_data_by_given_window l ((l.length : Int) - p) p).map
            (fun a => a.buying_volume)) := by
  have hpast := calc_avg_ok l ((l.length : Int) - p) p (by omega) (by omega)
    (by omega) (by omega)
  have hrecent := calc_avg_ok l ((l.length : Int) - r) r (by omega) (by omega)
    (by omega) (by omega)
  have hsum : ∀ (f : KLine → Rat) (q : Int), 1 ≤ q → q ≤ (l.length : Int) →
      windowSum f l ((l.length : Int) - q) q =
        ((l.drop (l.length - q.toNat)).map f).sum := by
    intro f q hq1 hq2
    unfold windowSum
    rw [barsInRange_nonneg l _ q (by omega) (by omega) (by omega),
        show ((l.length : Int) - q).toNat = l.length - q.toNat from by omega,
        List.take_of_length_le (by rw [List.length_drop]; omega)]
  constructor
  · simp only [buying_volume_diff_ratio, hpast, hrecent]
    rw [hsum (fun k => k.buying_volume) p hp1 hp2,
        hsum (fun k => k.buying_volume) r hr1 hr2]
    unfold lastWindowAvgBuyingVolume
    by_cases hc : ((l.drop (l.length - p.toNat)).map
        (fun k => k.buying_volume)).sum / (p : Rat) = 0
    · rw [if_pos hc, if_pos hc]
    · rw [if_neg hc, if_neg hc]
  · intro hlt
    have hneg := calc_avg_ok l (-p) p (by omega) (by omega) (by omega) (by omega)
    rw [hneg, hpast]
    simp only [Except.map]
    have hbars : barsInRange l (-p) p = barsInRange l ((l.length : Int) - p) p := by
      unfold barsInRange
      apply List.map_congr_left
      intro j hj
      simp only [List.mem_range] at hj
      rw [pyGet_neg l _ (by omega), pyGet_nonneg l _ (by omega)]
      congr 1
      omega
    unfold windowSum
    rw [hbars]

theorem c2_witness :
    buying_volume_diff_ratio [oneBar, twoBar] 2 1 2 =
      .ok (if lastWindowAvgBuyingVolume [oneBar, twoBar] 1 = 0 then 0
           else (lastWindowAvgBuyingVolume [oneBar, twoBar] 2 -
                 lastWindowAvgBuyingVolume [oneBar, twoBar] 1) /
                lastWindowAvgBuyingVolume [oneBar, twoBar] 1)
    ∧ ((1 : Int) < 2 →
        (calculate_average_data_by_given_window [oneBar, twoBar] (-1) 1).map
            (fun a => a.buying_volume) =
        (calculate_average_data_by_given_window [oneBar, twoBar] (2 - 1) 1).map
            (fun a => a.buying_volume)) :=
  c2_ratio_from_last_windows [oneBar, twoBar] 1 2 (by decide) (by decide)
    (by decide) (by decide)

instance : IsTotal (String × Rat) (fun a b => b.2 ≤ a.2) :=
  ⟨fun a b => le_total b.2 a.2⟩

instance : IsTrans (String × Rat) (fun a b => b.2 ≤ a.2) :=
  ⟨fun _ _ _ h1 h2 => le_trans h2 h1⟩

/-- C6: the output of both ranking passes is the collected
`(symbol, ratio)` list sorted non-increasingly by ratio, and the sort is
stable: any two entries with equal ratio keep their relative input order
(Python's `sorted` is stable; a stable sort for a fixed total preorder is
unique, so the embedded `rankSort` is that sort). The last two conjuncts
tie both ranking passes to `rankSort` of their collected lists. -/
theorem c6_rank_sorted_stable (l : List (String × Rat)) :
    (rankSort l).Perm l
    ∧ List.Pairwise (fun a b : String × Rat => b.2 ≤ a.2) (rankSort l)
    ∧ (∀ a b : String × Rat, List.Sublist [a, b] l → a.2 = b.2 →
        List.Sublist [a, b] (rankSort l))
    ∧ (∀ (fetch : String → Except PyError RawBar) (st : RankMaintainer)
        (p r : Int) (st' : RankMaintainer) (res : List (String × Rat)),
        update_buying_volume_diff_ratio_rank fetch st p r = .ok (st', res) →
        ∃ c, updateRankLoop fetch p r st.trading_pair_names st [] = .ok (st', c)
          ∧ res = rankSort c)
    ∧ (∀ (fetchAll : String → Except PyError (List RawBar)) (st : RankMaintainer)
        (p r : Int) (st' : RankMaintainer) (res : List (String × Rat)),
        get_init_buying_volume_diff_ratio_rank fetchAll st p r = .ok (st', res) →
        ∃ c, initRankLoop fetchAll p r st.trading_pair_names st [] = .ok (st', c)
          ∧ res = rankSort c) := by
  refine ⟨List.perm_insertionSort _ l, List.sorted_insertionSort _ l, ?_, ?_, ?_⟩
  · intro a b hsub heq
    exact List.sublist_insertionSort (by simp [heq]) hsub
  · intro fetch st p r st' res h
    unfold update_buying_volume_diff_ratio_rank at h
    by_cases h1 : p ≤ st.max_klines_num
    · rw [if_pos h1] at h
      by_cases h2 : r ≤ st.max_klines_num
      · rw [if_pos h2] at h
        cases hloop : updateRankLoop fetch p r st.trading_pair_names st [] with
        | error e => rw [hloop] at h; simp at h
        | ok pr =>
          obtain ⟨stl, c⟩ := pr
          rw [hloop] at h
          simp only [Except.ok.injEq, Prod.mk.injEq] at h
          obtain ⟨hst, hres⟩ := h
          subst hst
          subst hres
          exact ⟨c, rfl, rfl⟩
      · rw [if_neg h2] at h
        simp at h
    · rw [if_neg h1] at h
      simp at h
  · intro fetchAll st p r st' res h
    unfold get_init_buying_volume_diff_ratio_rank at h
    by_cases h1 : p ≤ st.max_klines_num
    · rw [if_pos h1] at h
      by_cases h2 : r ≤ st.max_klines_num
      · rw [if_pos h2] at h
        cases hloop : initRankLoop fetchAll p r st.trading_pair_names st [] with
        | error e => rw [hloop] at h; simp at h
        | ok pr =>
          obtain ⟨stl, c⟩ := pr
          rw [hloop] at h
          simp only [Except.ok.injEq, Prod.mk.injEq] at h
          obtain ⟨hst, hres⟩ := h
          subst hst
          subst hres
          exact ⟨c, rfl, rfl⟩
      · rw [if_neg h2] at h
        simp at h
    · rw [if_neg h1] at h
      simp at h

theorem c6_witness :
    List.Sublist [("A", (1 : Rat)), ("B", 1)]
      (rankSort [("A", 1), ("C", 5), ("B", 1)]) :=
  (c6_rank_sorted_stable [("A", 1), ("C", 5), ("B", 1)]).2.2.1
    ("A", 1) ("B", 1) (by decide) (by decide)

/-- Every successful run of the update-ranking loop collects exactly one
entry per remaining tracked symbol, appended in order after the
accumulator: no symbol is skipped. -/
lemma updateRankLoop_names (fetch : String → Except PyError RawBar) (p r : Int) :
    ∀ (names : List String) (st : RankMaintainer) (acc : List (String × Rat))
      (st' : RankMaintainer) (res : List (String × Rat)),
      updateRankLoop fetch p r names st acc = .ok (st', res) →
      res.map Prod.fst = acc.map Prod.fst ++ names := by
  intro names
  induction names with
  | nil =>
    intro st acc st' res h
    simp only [updateRankLoop, Except.ok.injEq, Prod.mk.injEq] at h
    rw [← h.2]
    simp
  | cons name rest ih =>
    intro st acc st' res h
    cases h1 : update_klines fetch st name with
    | error e => simp [updateRankLoop, h1] at h
    | ok pr =>
      obtain ⟨u, st1⟩ := pr
      simp only [updateRankLoop, h1] at h
      cases h2 : List.lookup name st1.pair_name_to_klines_dict with
      | none => simp [h2] at h
      | some current =>
        simp only [h2] at h
        cases h3 : buying_volume_diff_ratio current st1.max_klines_num p r with
        | error e => simp [h3] at h
        | ok q =>
          simp only [h3] at h
          rw [ih st1 (acc ++ [(name, q)]) st' res h]
          simp

/-- C1 (amended): a batch ranking pass never skips a symbol. Whenever
`update_buying_volume_diff_ratio_rank` returns a result at all, that result
contains exactly one entry per tracked symbol — in particular a symbol
whose window update was REJECTED is still ranked, from its unchanged
window, because the source ignores the boolean returned by `update_klines`;
and when any symbol's processing raises (fetch error, missing window, range
violation), the exception propagates and the whole pass aborts with it
(see the counterexample), rather than skipping that symbol. -/
theorem c1_no_symbol_skipped (fetch : String → Except PyError RawBar)
    (st : RankMaintainer) (p r : Int) (st' : RankMaintainer)
    (out : List (String × Rat))
    (h : update_buying_volume_diff_ratio_rank fetch st p r = .ok (st', out)) :
    (out.map Prod.fst).Perm st.trading_pair_names := by
  unfold update_buying_volume_diff_ratio_rank at h
  by_cases h1 : p ≤ st.max_klines_num
  · rw [if_pos h1] at h
    by_cases h2 : r ≤ st.max_klines_num
    · rw [if_pos h2] at h
      cases hloop : updateRankLoop fetch p r st.trading_pair_names st [] with
      | error e => rw [hloop] at h; simp at h
      | ok pr =>
        obtain ⟨stl, c⟩ := pr
        rw [hloop] at h
        simp only [Except.ok.injEq, Prod.mk.injEq] at h
        obtain ⟨hst, hres⟩ := h
        have hnames := updateRankLoop_names fetch p r st.trading_pair_names
          st [] stl c hloop
        simp only [List.map_nil, List.nil_append] at hnames
        rw [← hres, ← hnames]
        exact (List.perm_insertionSort _ c).map Prod.fst
    · rw [if_neg h2] at h
      simp at h
  · rw [if_neg h1] at h
    simp at h

/-- A raw bar that is stale relative to a window ending at `oneBar`
(start time -5 < 0): its update is always rejected. -/
def staleRaw : RawBar :=
  { start_time := .vInt (-5), open_price := .vNumStr 1, max_price := .vNumStr 1,
    min_price := .vNumStr 1, close_price := .vNumStr 1, turn_over := .vNumStr 1,
    end_time := .vInt 1, volume := .vNumStr 1, transaction_num := .vInt 1,
    buying_turn_over := .vNumStr 1, buying_volume := .vNumStr 1,
    ignore_param := .vStr "0" }

/-- Fetch oracle that fails for symbol "A" and serves the stale bar
otherwise. -/
def fetchAbort : String → Except PyError RawBar :=
  fun s => if s = "A" then .error (.dataSourceError "boom") else .ok staleRaw

/-- Fetch oracle that always serves the stale (always-rejected) bar. -/
def fetchStale : String → Except PyError RawBar :=
  fun _ => .ok staleRaw

/-- Tracked symbols "A" and "B", each with a cached one-bar window. -/
def stAB : RankMaintainer :=
  { max_klines_num := 1, trading_pair_names := ["A", "B"],
    pair_name_to_klines_dict := [("A", [oneBar]), ("B", [oneBar])] }

/-- The shared per-symbol ratio on the one-bar window: past and recent
averages coincide, so the ratio is 0. -/
lemma ratio_oneBar : buying_volume_diff_ratio [oneBar] 1 1 1 = .ok 0 := by
  norm_num [buying_volume_diff_ratio, calculate_average_data_by_given_window,
    windowSum, barsInRange, pyGet, pyIdx, oneBar, dfltKLine, List.range_succ]

/-- Concrete run: both symbols' updates are rejected (stale bar), the
rejections are ignored, and BOTH symbols appear in the result, ranked from
their unchanged windows. -/
lemma c1_stale_run_eval :
    update_buying_volume_diff_ratio_rank fetchStale stAB 1 1 =
      .ok (stAB, [("A", 0), ("B", 0)]) := by
  have hA : update_klines fetchStale stAB "A" = .ok (false, stAB) := by decide
  have hB : update_klines fetchStale stAB "B" = .ok (false, stAB) := by decide
  have hlA : List.lookup "A" stAB.pair_name_to_klines_dict = some [oneBar] := by
    decide
  have hlB : List.lookup "B" stAB.pair_name_to_klines_dict = some [oneBar] := by
    decide
  have hm : stAB.max_klines_num = 1 := rfl
  have hloop : updateRankLoop fetchStale 1 1 ["A", "B"] stAB [] =
      .ok (stAB, [("A", 0), ("B", 0)]) := by
    simp only [updateRankLoop, hA, hB, hlA, hlB, hm, ratio_oneBar,
      List.nil_append, List.singleton_append]
  unfold update_buying_volume_diff_ratio_rank
  rw [if_pos (by decide : (1 : Int) ≤ stAB.max_klines_num),
      if_pos (by decide : (1 : Int) ≤ stAB.max_klines_num),
      show stAB.trading_pair_names = ["A", "B"] from rfl, hloop]
  simp [rankSort, List.insertionSort, List.orderedInsert]

/-- C1 counterexample: (a) a fetch failure for symbol "A" aborts the WHOLE
pass — the result is the propagated exception, and no entry for the healthy
symbol "B" is returned, contradicting "the pass completes and returns
entries for all other symbols"; (b) a symbol whose window update is
rejected is NOT skipped: with every update rejected, both symbols still
appear in the returned ranking, contradicting "that symbol is ... absent
from the result". -/
theorem c1_counterexample :
    update_buying_volume_diff_ratio_rank fetchAbort stAB 1 1 =
      .error (.dataSourceError "boom")
    ∧ update_buying_volume_diff_ratio_rank fetchStale stAB 1 1 =
        .ok (stAB, [("A", 0), ("B", 0)]) :=
  ⟨by decide, c1_stale_run_eval⟩

theorem c1_witness :
    (([("A", (0 : Rat)), ("B", 0)]).map Prod.fst).Perm stAB.trading_pair_names :=
  c1_no_symbol_skipped fetchStale stAB 1 1 stAB [("A", 0), ("B", 0)]
    c1_stale_run_eval

/-- C7: `resolve()` is idempotent once the intersection stabilizes: against
fixed spot and derivatives listings, a second run of
`get_need_trading_pair_set` appends nothing, so the persisted tracked list
after the second run equals the list after the first; moreover one run
never appends duplicates (the appended symbols are pairwise distinct and
none of them is already in the persisted list), and already-present
symbols are never removed (the old list is a prefix of the new by
construction: the new list is the old with the appendix concatenated). -/
theorem c7_resolver_idempotent (cache : List String)
    (spot : List SpotSymbolInfo) (um : List String) :
    get_need_trading_pair_set (get_need_trading_pair_set cache spot um) spot um
      = get_need_trading_pair_set cache spot um
    ∧ (symbolsToAppend cache spot um).Nodup
    ∧ (symbolsToAppend cache spot um).all (fun s => !(cache.contains s)) = true := by
  refine ⟨?_, ?_, ?_⟩
  · have happ : symbolsToAppend (get_need_trading_pair_set cache spot um)
        spot um = [] := by
      unfold symbolsToAppend
      rw [List.filter_eq_nil_iff]
      intro a ha hmem
      obtain ⟨haum, hqum⟩ := List.mem_filter.mp (List.mem_dedup.mp ha)
      simp only [umPairQualifies, Bool.and_eq_true, bne_iff_ne, ne_eq,
        beq_iff_eq, Bool.not_eq_eq_eq_not, Bool.not_true,
        List.elem_eq_mem, decide_eq_false_iff_not] at hqum
      obtain ⟨⟨hne, hus⟩, hnin1⟩ := hqum
      simp only [List.elem_eq_mem, List.mem_map, decide_eq_true_eq] at hmem
      obtain ⟨pp, hppf, hpps⟩ := hmem
      obtain ⟨hppspot, hppq⟩ := List.mem_filter.mp hppf
      simp only [spotSymbolQualifies, Bool.and_eq_true, bne_iff_ne, ne_eq,
        beq_iff_eq, Bool.not_eq_eq_eq_not, Bool.not_true,
        List.elem_eq_mem, decide_eq_false_iff_not] at hppq
      obtain ⟨⟨⟨hpne, hpus⟩, hpst⟩, hpnin1⟩ := hppq
      unfold get_need_trading_pair_set at hnin1
      rw [List.mem_append] at hnin1
      push_neg at hnin1
      obtain ⟨hnincache, hninapp⟩ := hnin1
      apply hninapp
      unfold symbolsToAppend
      rw [List.mem_filter]
      refine ⟨List.mem_dedup.mpr ?_, ?_⟩
      · rw [List.mem_filter]
        refine ⟨haum, ?_⟩
        simp only [umPairQualifies, Bool.and_eq_true, bne_iff_ne, ne_eq,
          beq_iff_eq, Bool.not_eq_eq_eq_not, Bool.not_true,
          List.elem_eq_mem, decide_eq_false_iff_not]
        exact ⟨⟨hne, hus⟩, hnincache⟩
      · simp only [List.elem_eq_mem, List.mem_map, decide_eq_true_eq]
        refine ⟨pp, ?_, hpps⟩
        rw [List.mem_filter]
        refine ⟨hppspot, ?_⟩
        simp only [spotSymbolQualifies, Bool.and_eq_true, bne_iff_ne, ne_eq,
          beq_iff_eq, Bool.not_eq_eq_eq_not, Bool.not_true,
          List.elem_eq_mem, decide_eq_false_iff_not]
        exact ⟨⟨⟨hpne, hpus⟩, hpst⟩, by rw [hpps]; exact hnincache⟩
    have hexp : get_need_trading_pair_set (get_need_trading_pair_set cache spot um)
        spot um = get_need_trading_pair_set cache spot um ++
          symbolsToAppend (get_need_trading_pair_set cache spot um) spot um := rfl
    rw [hexp, happ, List.append_nil]
  · exact List.Nodup.filter _ (List.nodup_dedup _)
  · rw [List.all_eq_true]
    intro a ha
    obtain ⟨_, hq⟩ := List.mem_filter.mp (List.mem_dedup.mp
      (List.mem_filter.mp ha).1)
    simp only [umPairQualifies, Bool.and_eq_true] at hq
    exact hq.2

/-- A 12-field raw tuple whose `min_price` field is a non-numeric string
(not coercible to float) while every other field is well formed. -/
def rawMinOops : RawBar :=
  { start_time := .vInt 0, open_price := .vNumStr 1, max_price := .vNumStr 2,
    min_price := .vStr "oops", close_price := .vNumStr 1,
    turn_over := .vNumStr 5, end_time := .vInt 59999, volume := .vNumStr 7,
    transaction_num := .vInt 3, buying_turn_over := .vNumStr 2,
    buying_volume := .vNumStr 4, ignore_param := .vStr "0" }

/-- C8 (code bug): `KLine.__init__` never coerces `min_price` — the source
coerces the other three prices (lines 50-52) but has no
`self.min_price = float(self.min_price)` line. Consequently, constructing
a bar whose `min_price` field cannot be coerced to a float SUCCEEDS
(no `MalformedBarError`), and the resulting bar's `min_price` is the raw
un-coerced value rather than a floating-point price — contradicting both
halves of the claim, whose reading matches the evident intent of the code
(every other required field is coerced, and a `get_min_price` accessor
exists). -/
theorem c8_min_price_not_coerced :
    pyFloat (.vStr "oops") = none
    ∧ constructBar rawMinOops =
        .ok { start_time := 0, open_price := 1, max_price := 2,
              min_price := .vStr "oops", close_price := 1, turn_over := 5,
              end_time := 59999, volume := 7, transaction_num := 3,
              buying_turn_over := 2, buying_volume := 4,
              ignore_param := "0" } :=
  ⟨rfl, rfl⟩

/-- C10: calling `update_klines` (the spec's `refresh`) for a symbol with no
cached window raises `KeyError` from indexing the per-symbol map — built as
`defaultdict()` with no default factory — instead of initializing a window
or reporting a rejection; the fetch of the latest bar (which happens first)
is assumed to succeed. -/
theorem c10_refresh_missing_window_keyerror
    (fetch : String → Except PyError RawBar) (st : RankMaintainer)
    (symbol : String) (k : KLine)
    (hmiss : List.lookup symbol st.pair_name_to_klines_dict = none)
    (hfetch : get_latest_kline fetch symbol = .ok k) :
    update_klines fetch st symbol = .error (.keyError symbol) := by
  simp only [update_klines, hfetch, hmiss]

/-- State with no cached windows at all. -/
def stEmpty : RankMaintainer :=
  { max_klines_num := 1, trading_pair_names := [],
    pair_name_to_klines_dict := [] }

/-- The bar `constructBar staleRaw` evaluates to. -/
def staleKLine : KLine :=
  { start_time := -5, open_price := 1, max_price := 1,
    min_price := .vNumStr 1, close_price := 1, turn_over := 1,
    end_time := 1, volume := 1, transaction_num := 1, buying_turn_over := 1,
    buying_volume := 1, ignore_param := "0" }

theorem c10_witness :
    update_klines fetchStale stEmpty "BTCUSDT" = .error (.keyError "BTCUSDT") :=
  c10_refresh_missing_window_keyerror fetchStale stEmpty "BTCUSDT" staleKLine
    (by decide) (by decide)
